import Mathlib

/-!
Verification development for the `discourses` Python SDK (a client library
for a remote sentiment-analysis HTTP API).

The repository is embedded shallowly:

* Python `str` is modelled by Lean `String` (a wrapper around `List Char`),
  with explicit list-level helpers for `str.lower` and `str.strip`.
  Case mapping is modelled for ASCII letters via an explicit table (Python's
  `str.lower` additionally folds non-ASCII letters, which no era token or
  tested string uses); whitespace is modelled by `Char.isWhitespace`
  (space, tab, carriage return, newline).
* JSON payloads are an inductive `Json` type; Python dicts are association
  lists of string keys (a Python dict has distinct keys, so lookup of the
  first matching key agrees with dict lookup).
* Fallible Python code returns `Except PyExn` values; the SDK's exception
  hierarchy is the `DiscError` type, whose constructors carry the fields
  assigned in `src/src/discourses/exceptions.py`.
* The network is a parameter: a client operation takes a transport function
  `send : Request → Response` and returns the list of requests it actually
  issued together with its result, so "no network call" and "exactly one
  request" are statable.

Module mapping: namespace `Discourses` embeds the installed package
`src/src/discourses/{constants,exceptions,models,client}.py`; namespace
`RootConstants` embeds the divergent duplicate module `src/constants.py`.
-/

/-! ## Python string primitives -/

/-- ASCII case table: each pair is an uppercase letter with its lowercase
form. Python's `str.lower` maps exactly the left column to the right column
on ASCII input. -/
def casePairs : List (Char × Char) :=
  [('A', 'a'), ('B', 'b'), ('C', 'c'), ('D', 'd'), ('E', 'e'), ('F', 'f'),
   ('G', 'g'), ('H', 'h'), ('I', 'i'), ('J', 'j'), ('K', 'k'), ('L', 'l'),
   ('M', 'm'), ('N', 'n'), ('O', 'o'), ('P', 'p'), ('Q', 'q'), ('R', 'r'),
   ('S', 's'), ('T', 't'), ('U', 'u'), ('V', 'v'), ('W', 'w'), ('X', 'x'),
   ('Y', 'y'), ('Z', 'z')]

/-- The 26 lowercase ASCII letters (the alphabet of every era token). -/
def lowerAlpha : List Char :=
  ['a', 'b', 'c', 'd', 'e', 'f', 'g', 'h', 'i', 'j', 'k', 'l', 'm',
   'n', 'o', 'p', 'q', 'r', 's', 't', 'u', 'v', 'w', 'x', 'y', 'z']

/-- One character of `str.lower`: an ASCII uppercase letter becomes its
lowercase form, every other character is unchanged. -/
def lowerChar (c : Char) : Char :=
  match casePairs.find? (fun p => p.1 = c) with
  | some p => p.2
  | none => c

/-- `str.lower` on the character list of a string. -/
def listLower (l : List Char) : List Char := l.map lowerChar

/-- `str.strip` on the character list of a string: drop leading and trailing
whitespace. -/
def listStrip (l : List Char) : List Char :=
  ((l.dropWhile Char.isWhitespace).reverse.dropWhile Char.isWhitespace).reverse

/-- Python `value.lower()`. -/
def pyLower (s : String) : String := String.mk (listLower s.data)

/-- Python `value.strip()`. -/
def pyStrip (s : String) : String := String.mk (listStrip s.data)

/-- Helper for `pyIntStr`: checks a digit run that may contain single
underscores between digits, starting at a position that must hold a digit. -/
def expectDigit : List Char → Bool
  | [] => false
  | c :: rest => c.isDigit && afterDigit rest
where
  /-- Continuation after at least one digit: a digit continues the run, an
  underscore must be followed by a further digit. -/
  afterDigit : List Char → Bool
    | [] => true
    | c :: rest => if c = '_' then expectDigit rest else c.isDigit && afterDigit rest

/-- Decimal value of a digit run, ignoring underscores. -/
def digitsToNat (l : List Char) : Nat :=
  (l.filter (fun c => !(c == '_'))).foldl (fun n c => n * 10 + (c.toNat - 48)) 0

/-- Python `int(s)` for a `str` argument: surrounding whitespace is ignored,
an optional sign precedes a run of decimal digits (single underscores are
allowed between digits); `none` models the `ValueError` raised otherwise.
Non-ASCII decimal digits, accepted by Python, are not modelled. -/
def pyIntStr (s : String) : Option Int :=
  let l := listStrip s.data
  match l with
  | '+' :: rest => if expectDigit rest then some (digitsToNat rest : Int) else none
  | '-' :: rest => if expectDigit rest then some (-(digitsToNat rest : Int)) else none
  | _ => if expectDigit l then some (digitsToNat l : Int) else none

/-! ## JSON values and Python dict operations -/

/-- A decoded JSON value; `obj` is a Python dict as an association list. -/
inductive Json where
  | null
  | bool (b : Bool)
  | num (q : ℚ)
  | str (s : String)
  | arr (xs : List Json)
  | obj (kvs : List (String × Json))

/-- Python dict lookup `d.get(k, default)` on an association list. -/
def dictGetD (kvs : List (String × Json)) (k : String) (default : Json) : Json :=
  match kvs.find? (fun kv => kv.1 = k) with
  | some kv => kv.2
  | none => default

/-- Python `k in d` for a dict `d`. -/
def hasKey (kvs : List (String × Json)) (k : String) : Bool :=
  kvs.any (fun kv => kv.1 = k)

/-- Python exceptions that escape the SDK code under study: either one of the
SDK's own `DiscoursesError` subclasses (`DiscError` below), or a built-in
exception raised by duck typing (`.get` on a non-dict) or by a failed
numeric conversion. -/
inductive PyExn (ε : Type) where
  | raised (e : ε)
  | attributeError
  | typeError
  | valueError

/-- Python `d.get(k, default)` where `d` is an arbitrary value: on a dict it
looks the key up, on anything else Python raises `AttributeError`. -/
def Json.pyGet (d : Json) (k : String) (default : Json) : Except (PyExn ε) Json :=
  match d with
  | .obj kvs => .ok (dictGetD kvs k default)
  | _ => .error .attributeError

/-- Python `float(v)` on a decoded JSON value: numbers pass through, booleans
convert; `None`, lists and dicts raise `TypeError`. `float` on a numeric
string succeeds in Python and is not modelled (nothing below applies `float`
to a string). JSON numbers are modelled as rationals; binary floating point
is not modelled. -/
def pyFloat : Json → Except (PyExn ε) ℚ
  | .num q => .ok q
  | .bool b => .ok (if b then 1 else 0)
  | _ => .error .typeError

/-- Python `int(v)` on a decoded JSON value: numbers truncate toward zero,
booleans convert, strings parse as `pyIntStr` (ValueError on failure);
`None`, lists and dicts raise `TypeError`. -/
def pyToInt : Json → Except (PyExn ε) Int
  | .num q => .ok (Int.tdiv q.num (q.den : Int))
  | .bool b => .ok (if b then 1 else 0)
  | .str s =>
    match pyIntStr s with
    | some n => .ok n
    | none => .error .valueError
  | _ => .error .typeError

namespace Discourses

/-! ## src/src/discourses/constants.py -/

/-- Module constant `BASE_URL`. -/
def BASE_URL : String := "https://discourses.io/api/v1"

/-- Module constant `DEFAULT_TIMEOUT` (seconds). -/
def DEFAULT_TIMEOUT : Nat := 30

/-- Module constant `ENDPOINTS` of the installed package. -/
def ENDPOINTS : List (String × String) :=
  [("analyze", "/analyze"),
   ("compare_eras", "/analyze/compare-eras"),
   ("batch", "/analyze/batch")]

/-- `ENDPOINTS[key]` as a total lookup (every key the client uses is
present, so the `KeyError` case cannot arise). -/
def endpointD (k : String) : String :=
  ((ENDPOINTS.find? (fun p => p.1 = k)).map (fun p => p.2)).getD ""

/-- `ENDPOINTS.get(key)`. -/
def endpoint (k : String) : Option String :=
  (ENDPOINTS.find? (fun p => p.1 = k)).map (fun p => p.2)

/-- The `Era` enumeration of the installed package: `PRIMITIVE`, `MEME`,
`PRESENT`. -/
inductive Era where
  | PRIMITIVE
  | MEME
  | PRESENT
deriving DecidableEq

/-- The `value` of each member, also its `__str__`. -/
def Era.value : Era → String
  | .PRIMITIVE => "primitive"
  | .MEME => "meme"
  | .PRESENT => "present"

/-- Classmethod `Era.all()`. -/
def Era.all : List Era := [.PRIMITIVE, .MEME, .PRESENT]

/-- Classmethod `Era.from_string`: lowercase and strip the argument, then
match it against the three tokens; the `ValueError` branch is the `.error`
case. -/
def Era.from_string (value : String) : Except String Era :=
  let value := pyStrip (pyLower value)
  if value = "primitive" then .ok .PRIMITIVE
  else if value = "meme" then .ok .MEME
  else if value = "present" then .ok .PRESENT
  else .error ("Unknown era: " ++ value ++ ". Valid eras: primitive, meme, present")

/-! ## src/src/discourses/exceptions.py -/

/-- The SDK's exception hierarchy: each constructor is one subclass of
`DiscoursesError` raised by the code under study, carrying the fields its
`__init__` assigns. A server-supplied `message` is an arbitrary decoded
value, so it is a `Json`; a `None` response is stored as the empty dict by
`DiscoursesError.__init__`, so `response` is always a `Json`. -/
inductive DiscError where
  | authenticationError (message : Json) (status_code : Option Nat) (response : Json)
  | rateLimitError (message : Json) (status_code : Option Nat) (response : Json)
      (retry_after : Option Int)
  | validationError (message : Json) (status_code : Option Nat) (response : Json)
  | apiError (message : Json) (status_code : Option Nat) (response : Json)

/-- Exceptions out of client code: SDK errors or Python built-ins. -/
abbrev Exn := PyExn DiscError

/-! ## src/src/discourses/models.py -/

/-- Dataclass `AnalysisResult`. `label` is stored as extracted (Python does
not coerce it to `str`), numeric fields are the results of `float`/`int`
conversions, `scores` is the four-key dict built by `from_dict`. -/
structure AnalysisResult where
  label : Json
  confidence : ℚ
  outlook : ℚ
  scores : List (String × ℚ)
  word_count : Int
  matched_count : Int
  negation_count : Int
  raw : Json

/-- Classmethod `AnalysisResult.from_dict`. -/
def AnalysisResult.from_dict (data : Json) : Except Exn AnalysisResult := do
  let classification ← data.pyGet "classification" (.obj [])
  let scores ← data.pyGet "scores" (.obj [])
  let analysis ← data.pyGet "analysis" (.obj [])
  let label ← classification.pyGet "label" (.str "neutral")
  let confidence ← pyFloat (← classification.pyGet "confidence" (.num 0))
  let outlook ← pyFloat (← scores.pyGet "outlook" (.num 0))
  let bullish ← pyFloat (← scores.pyGet "bullish" (.num 0))
  let bearish ← pyFloat (← scores.pyGet "bearish" (.num 0))
  let neutralScore ← pyFloat (← scores.pyGet "neutral" (.num 0))
  let confusion ← pyFloat (← scores.pyGet "confusion" (.num 0))
  let word_count ← pyToInt (← analysis.pyGet "word_count" (.num 0))
  let matched_count ← pyToInt (← analysis.pyGet "matched_count" (.num 0))
  let negation_count ← pyToInt (← analysis.pyGet "negation_count" (.num 0))
  return { label := label
           confidence := confidence
           outlook := outlook
           scores := [("bullish", bullish), ("bearish", bearish),
                      ("neutral", neutralScore), ("confusion", confusion)]
           word_count := word_count
           matched_count := matched_count
           negation_count := negation_count
           raw := data }

/-- Dataclass `CompareResult`: the three extracted fields are stored exactly
as `data.get` returns them (the type annotations promise dicts, but the code
does not check). -/
structure CompareResult where
  results : Json
  drift : Json
  meta : Json
  raw : Json

/-- Classmethod `CompareResult.from_dict`. -/
def CompareResult.from_dict (data : Json) : Except Exn CompareResult := do
  let results ← data.pyGet "results" (.obj [])
  let drift ← data.pyGet "drift" (.obj [])
  let meta ← data.pyGet "meta" (.obj [])
  return { results := results, drift := drift, meta := meta, raw := data }

/-- Dataclass `BatchResult`. -/
structure BatchResult where
  results : Json
  meta : Json
  raw : Json

/-- Classmethod `BatchResult.from_dict`. -/
def BatchResult.from_dict (data : Json) : Except Exn BatchResult := do
  let results ← data.pyGet "results" (.obj [])
  let meta ← data.pyGet "meta" (.obj [])
  return { results := results, meta := meta, raw := data }

/-- Python `"error" in v` for a per-item result `v`: key membership when `v`
is a dict. The entries of `BatchResult.results` are dicts (its annotated
type); membership in a list or substring search in a string, which Python
would also accept, is not modelled, and `in` on other values raises
`TypeError`. -/
def pyHasErrorKey : Json → Except Exn Bool
  | .obj kvs => .ok (hasKey kvs "error")
  | _ => .error .typeError

/-- The dict comprehension shared by `get_successful` (`want = false`) and
`get_failed` (`want = true`): keep the entries whose value's `"error" in v`
test equals `want`. -/
def filterByError (want : Bool) : List (String × Json) → Except Exn (List (String × Json))
  | [] => .ok []
  | (k, v) :: rest => do
    let b ← pyHasErrorKey v
    let r ← filterByError want rest
    if b = want then return (k, v) :: r else return r

/-- Method `BatchResult.get_successful`: entries of `results` without an
`"error"` key (`.items()` on a non-dict raises `AttributeError`). -/
def BatchResult.get_successful (b : BatchResult) : Except Exn (List (String × Json)) :=
  match b.results with
  | .obj kvs => filterByError false kvs
  | _ => .error .attributeError

/-- Method `BatchResult.get_failed`: entries of `results` with an `"error"`
key. -/
def BatchResult.get_failed (b : BatchResult) : Except Exn (List (String × Json)) :=
  match b.results with
  | .obj kvs => filterByError true kvs
  | _ => .error .attributeError

/-! ## src/src/discourses/client.py -/

/-- One HTTP request as `Discourses._request` issues it: always `POST` with
a JSON body in this client. -/
structure Request where
  method : String
  endpoint : String
  body : Json

/-- One HTTP response as `_handle_response` consumes it: the status code,
the decoded JSON body (`none` when `response.json()` raises `ValueError`),
the raw body text, and the `X-RateLimit-Reset` header when present. -/
structure Response where
  status_code : Nat
  body : Option Json
  text : String
  rate_limit_reset : Option String

/-- The `try response.json() except ValueError` step of `_handle_response`:
an undecodable body becomes `{"message": response.text or "Unknown error"}`. -/
def responseData (response : Response) : Json :=
  match response.body with
  | some d => d
  | none => .obj [("message", .str (if response.text = "" then "Unknown error" else response.text))]

/-- The `message = data.get("message", data.get("error", "Unknown error"))`
step. -/
def extractMessage (kvs : List (String × Json)) : Json :=
  dictGetD kvs "message" (dictGetD kvs "error" (.str "Unknown error"))

/-- The `retry_after` computation of the 429 branch: absent or falsy header
gives `None`, otherwise `int(header)` with the `ValueError` swallowed. -/
def retryAfterOf (response : Response) : Option Int :=
  match response.rate_limit_reset with
  | none => none
  | some h => if h = "" then none else pyIntStr h

/-- Method `Discourses._handle_response`. Status 200 returns the decoded
payload; otherwise the message is extracted and a status-specific error is
raised. `data.get` on a decoded non-dict payload raises `AttributeError`,
as in Python. -/
def handle_response (response : Response) : Except Exn Json :=
  let data := responseData response
  if response.status_code = 200 then .ok data
  else
    match data with
    | .obj kvs =>
      let message := extractMessage kvs
      if response.status_code = 401 then
        .error (.raised (.authenticationError message (some response.status_code) data))
      else if response.status_code = 429 then
        .error (.raised (.rateLimitError message (some response.status_code) data
          (retryAfterOf response)))
      else if response.status_code = 400 ∨ response.status_code = 422 then
        .error (.raised (.validationError message (some response.status_code) data))
      else
        .error (.raised (.apiError message (some response.status_code) data))
    | _ => .error .attributeError

/-- The `era` argument of `analyze`/`batch`: `Union[str, Era]`. -/
inductive EraArg where
  | era (e : Era)
  | str (s : String)

/-- `str(era) if isinstance(era, Era) else era`. -/
def eraArgStr : EraArg → String
  | .era e => e.value
  | .str s => s

/-- Python truthiness of the optional `era` argument: `None` and the empty
string are falsy; every `Era` member is truthy (its value is a nonempty
string). -/
def eraArgTruthy : Option EraArg → Bool
  | none => false
  | some (.era _) => true
  | some (.str s) => !(s == "")

/-- The client-side `ValidationError("text cannot be empty")`: the
constructor defaults fill in status code 400 and an empty response dict. -/
def emptyTextError : Exn :=
  .raised (.validationError (.str "text cannot be empty") (some 400) (.obj []))

/-- Method `Discourses.analyze`, with the transport as the parameter
`send`. The first component lists the requests actually issued (empty when
local validation fails, one request otherwise); the second is the returned
`AnalysisResult` or the exception raised. -/
def analyze (send : Request → Response) (text : String) (era : Option EraArg) :
    List Request × Except Exn AnalysisResult :=
  if text = "" ∨ pyStrip text = "" then
    ([], .error emptyTextError)
  else
    let request_data : List (String × Json) :=
      match era with
      | none => [("text", .str text)]
      | some a =>
        if eraArgTruthy (some a) then [("text", .str text), ("era", .str (eraArgStr a))]
        else [("text", .str text)]
    let req : Request := { method := "POST", endpoint := endpointD "analyze",
                           body := .obj request_data }
    match handle_response (send req) with
    | .error e => ([req], .error e)
    | .ok data =>
      match AnalysisResult.from_dict data with
      | .error e => ([req], .error e)
      | .ok result => ([req], .ok result)

/-- Method `Discourses.compare_eras`, with the transport as a parameter. -/
def compare_eras (send : Request → Response) (text : String)
    (eras : Option (List EraArg)) : List Request × Except Exn CompareResult :=
  if text = "" ∨ pyStrip text = "" then
    ([], .error emptyTextError)
  else
    let request_data : List (String × Json) :=
      match eras with
      | none => [("text", .str text)]
      | some l =>
        if !(l.isEmpty) then
          [("text", .str text), ("eras", .arr (l.map (fun e => .str (eraArgStr e))))]
        else [("text", .str text)]
    let req : Request := { method := "POST", endpoint := endpointD "compare_eras",
                           body := .obj request_data }
    match handle_response (send req) with
    | .error e => ([req], .error e)
    | .ok data =>
      match CompareResult.from_dict data with
      | .error e => ([req], .error e)
      | .ok result => ([req], .ok result)

/-- Batch-item validation: `None` when the item passes the loop body, the
raised `ValidationError` otherwise. The source message wraps `id` and
`text` in single quotes; the quote characters are omitted here. -/
def itemError (i : Nat) (item : Json) : Option DiscError :=
  match item with
  | .obj kvs =>
    if hasKey kvs "id" && hasKey kvs "text" then none
    else some (.validationError (.str ("Item " ++ toString i ++ " must have id and text keys"))
      (some 400) (.obj []))
  | _ => some (.validationError (.str ("Item " ++ toString i ++ " must be a dict with id and text keys"))
      (some 400) (.obj []))

/-- The `for i, item in enumerate(texts)` validation loop: the first
failing item's error, if any. -/
def firstItemError (i : Nat) : List Json → Option DiscError
  | [] => none
  | item :: rest =>
    match itemError i item with
    | some e => some e
    | none => firstItemError (i + 1) rest

/-- Method `Discourses.batch`, with the transport as a parameter. The `era`
parameter defaults to `Era.PRESENT` at the call sites modelled here. -/
def batch (send : Request → Response) (texts : List Json) (era : EraArg) :
    List Request × Except Exn BatchResult :=
  if texts.isEmpty then
    ([], .error (.raised (.validationError (.str "texts list cannot be empty") (some 400) (.obj []))))
  else
    match firstItemError 0 texts with
    | some e => ([], .error (.raised e))
    | none =>
      let era_value := eraArgStr era
      let req : Request := { method := "POST", endpoint := endpointD "batch",
                             body := .obj [("texts", .arr texts), ("era", .str era_value)] }
      match handle_response (send req) with
      | .error e => ([req], .error e)
      | .ok data =>
        match BatchResult.from_dict data with
        | .error e => ([req], .error e)
        | .ok result => ([req], .ok result)

end Discourses

namespace RootConstants

/-! ## src/constants.py (the divergent duplicate module at the repository
root) -/

/-- Module constant `ENDPOINTS` of the root module; its `analyze` entry
differs from the packaged one. -/
def ENDPOINTS : List (String × String) :=
  [("analyze", "/analyze/era"),
   ("compare_eras", "/analyze/compare-eras"),
   ("batch", "/analyze/batch")]

/-- `ENDPOINTS.get(key)` for the root module. -/
def endpoint (k : String) : Option String :=
  (ENDPOINTS.find? (fun p => p.1 = k)).map (fun p => p.2)

/-- The `Era` enumeration of the root module: it has the extra member
`RAMP`. -/
inductive Era where
  | PRIMITIVE
  | RAMP
  | MEME
  | PRESENT
deriving DecidableEq

/-- The `value` of each member, also its `__str__`. -/
def Era.value : Era → String
  | .PRIMITIVE => "primitive"
  | .RAMP => "ramp"
  | .MEME => "meme"
  | .PRESENT => "present"

/-- Classmethod `Era.all()`. -/
def Era.all : List Era := [.PRIMITIVE, .RAMP, .MEME, .PRESENT]

/-- Classmethod `Era.from_string` of the root module, with the extra `ramp`
branch. -/
def Era.from_string (value : String) : Except String Era :=
  let value := pyStrip (pyLower value)
  if value = "primitive" then .ok .PRIMITIVE
  else if value = "ramp" then .ok .RAMP
  else if value = "meme" then .ok .MEME
  else if value = "present" then .ok .PRESENT
  else .error ("Unknown era: " ++ value ++ ". Valid eras: primitive, ramp, meme, present")

end RootConstants

/-! ## Specification-side predicates

These phrase the spec's words independently of the code, for the claims that
compare the two. -/

/-- Character `a` differs from `b` only by letter case (ASCII): it is `b`
itself or the uppercase form paired with `b` in the case table. -/
def specCaseChar (a b : Char) : Bool :=
  a == b || casePairs.any (fun p => p.1 == a && p.2 == b)

/-- Word `c` differs from `t` only by letter case, character for
character. -/
def specCaseWord : List Char → List Char → Bool
  | [], [] => true
  | a :: as, b :: bs => specCaseChar a b && specCaseWord as bs
  | _, _ => false

/-- Every character of `l` is whitespace. -/
def allWhitespace (l : List Char) : Bool := l.all Char.isWhitespace

/-- String `s` differs from token `t` only by letter case and
leading/trailing whitespace. -/
def caseWsVariant (s t : List Char) : Prop :=
  ∃ w1 c w2, s = w1 ++ c ++ w2 ∧ allWhitespace w1 = true ∧ allWhitespace w2 = true ∧
    specCaseWord c t = true

/-- A wire token: nonempty, all lowercase ASCII letters (true of every era
token). -/
def goodToken (t : List Char) : Bool :=
  !t.isEmpty && t.all (fun c => lowerAlpha.contains c)

/-- Batch-item wellformedness as the spec states it: a dict carrying both an
`id` and a `text` key. -/
def itemOk : Json → Bool
  | .obj kvs => hasKey kvs "id" && hasKey kvs "text"
  | _ => false

/-- An entry value carries the error marker: it is a dict with an `"error"`
key. -/
def errorMarked : Json → Bool
  | .obj kvs => hasKey kvs "error"
  | _ => false

/-- The value is a JSON object. -/
def isJsonObj : Json → Bool
  | .obj _ => true
  | _ => false

/-- A canned transport whose server replies `200 {}` to everything, used to
instantiate theorems about the client at concrete inputs. -/
def okSend : Discourses.Request → Discourses.Response :=
  fun _ => { status_code := 200, body := some (.obj []), text := "", rate_limit_reset := none }

/-! ## Shared lemmas -/

theorem dictGetD_of_hasKey_false {kvs : List (String × Json)} {k : String} (d : Json)
    (h : hasKey kvs k = false) : dictGetD kvs k d = d := by
  have h2 : kvs.find? (fun kv => kv.1 = k) = none := by
    rw [List.find?_eq_none]
    intro x hx hk
    have : kvs.any (fun kv => kv.1 = k) = true := List.any_eq_true.mpr ⟨x, hx, hk⟩
    rw [hasKey] at h
    simp [this] at h
  simp [dictGetD, h2]

theorem pyGet_obj (kvs : List (String × Json)) (k : String) (d : Json) :
    Json.pyGet (ε := Discourses.DiscError) (.obj kvs) k d = .ok (dictGetD kvs k d) := rfl

/-! ## Claims -/

/-- C3: the two duplicate constants modules diverge: the endpoint tables map
`analyze` to different paths, and the root module's Era defines a `RAMP`
member with token `ramp` that the packaged Era does not have. -/
theorem c3_constants_modules_diverge :
    RootConstants.endpoint "analyze" = some "/analyze/era" ∧
    Discourses.endpoint "analyze" = some "/analyze" ∧
    (("/analyze/era" : String) == "/analyze") = false ∧
    (RootConstants.Era.all.map RootConstants.Era.value).contains "ramp" = true ∧
    (Discourses.Era.all.map Discourses.Era.value).contains "ramp" = false :=
  ⟨rfl, rfl, rfl, rfl, rfl⟩

/-- C10: in each of the two Era definitions, `from_string` applied to the
string conversion of a member gives that member back. -/
theorem c10_era_str_roundtrip :
    (∀ e : Discourses.Era, Discourses.Era.from_string e.value = .ok e) ∧
    (∀ e : RootConstants.Era, RootConstants.Era.from_string e.value = .ok e) := by
  constructor
  · intro e; cases e <;> rfl
  · intro e; cases e <;> rfl

/-- C5: when the expected top-level fields are absent from the payload, each
model factory succeeds with the documented defaults and stores the full
original payload in `raw`. -/
theorem c5_model_factory_defaults (data : Json) (kvs : List (String × Json))
    (hdata : data = .obj kvs)
    (h1 : hasKey kvs "classification" = false) (h2 : hasKey kvs "scores" = false)
    (h3 : hasKey kvs "analysis" = false) (h4 : hasKey kvs "results" = false)
    (h5 : hasKey kvs "drift" = false) (h6 : hasKey kvs "meta" = false) :
    Discourses.AnalysisResult.from_dict data =
      .ok { label := .str "neutral", confidence := 0, outlook := 0,
            scores := [("bullish", 0), ("bearish", 0), ("neutral", 0), ("confusion", 0)],
            word_count := 0, matched_count := 0, negation_count := 0, raw := data } ∧
    Discourses.CompareResult.from_dict data =
      .ok { results := .obj [], drift := .obj [], meta := .obj [], raw := data } ∧
    Discourses.BatchResult.from_dict data =
      .ok { results := .obj [], meta := .obj [], raw := data } := by
  subst hdata
  refine ⟨?_, ?_, ?_⟩
  · simp [Discourses.AnalysisResult.from_dict, pyGet_obj,
      dictGetD_of_hasKey_false _ h1, dictGetD_of_hasKey_false _ h2,
      dictGetD_of_hasKey_false _ h3]
    rfl
  · simp [Discourses.CompareResult.from_dict, pyGet_obj,
      dictGetD_of_hasKey_false _ h4, dictGetD_of_hasKey_false _ h5,
      dictGetD_of_hasKey_false _ h6]
    rfl
  · simp [Discourses.BatchResult.from_dict, pyGet_obj,
      dictGetD_of_hasKey_false _ h4, dictGetD_of_hasKey_false _ h6]
    rfl

/-- C5 witness: the three factories at the concrete payload
`{"note": "x"}`, which lacks every expected field. -/
theorem c5_model_factory_defaults_witness :
    Discourses.AnalysisResult.from_dict (.obj [("note", .str "x")]) =
      .ok { label := .str "neutral", confidence := 0, outlook := 0,
            scores := [("bullish", 0), ("bearish", 0), ("neutral", 0), ("confusion", 0)],
            word_count := 0, matched_count := 0, negation_count := 0,
            raw := .obj [("note", .str "x")] } ∧
    Discourses.CompareResult.from_dict (.obj [("note", .str "x")]) =
      .ok { results := .obj [], drift := .obj [], meta := .obj [],
            raw := .obj [("note", .str "x")] } ∧
    Discourses.BatchResult.from_dict (.obj [("note", .str "x")]) =
      .ok { results := .obj [], meta := .obj [], raw := .obj [("note", .str "x")] } :=
  c5_model_factory_defaults (.obj [("note", .str "x")]) [("note", .str "x")]
    rfl rfl rfl rfl rfl rfl rfl

theorem filterByError_of_all_obj (want : Bool) (kvs : List (String × Json))
    (h : kvs.all (fun kv => isJsonObj kv.2) = true) :
    Discourses.filterByError want kvs = .ok (kvs.filter (fun kv => errorMarked kv.2 == want)) := by
  induction kvs with
  | nil => rfl
  | cons kv rest ih =>
    simp only [List.all_cons, Bool.and_eq_true] at h
    obtain ⟨h1, h2⟩ := h
    obtain ⟨k, v⟩ := kv
    cases v with
    | obj m =>
      by_cases hb : hasKey m "error" = want
      · simp [Discourses.filterByError, Discourses.pyHasErrorKey, Bind.bind, Except.bind,
          Pure.pure, Except.pure, ih h2, List.filter_cons, errorMarked, hb]
      · simp [Discourses.filterByError, Discourses.pyHasErrorKey, Bind.bind, Except.bind,
          Pure.pure, Except.pure, ih h2, List.filter_cons, errorMarked, hb]
    | null => simp [isJsonObj] at h1
    | bool b => simp [isJsonObj] at h1
    | num q => simp [isJsonObj] at h1
    | str s => simp [isJsonObj] at h1
    | arr xs => simp [isJsonObj] at h1

/-- C9: `get_successful` keeps exactly the entries without an error marker,
`get_failed` exactly those with one; the two parts are disjoint and together
they are the full results mapping. Both are pure list computations on the
already-parsed `results` field. -/
theorem c9_batch_result_partition (b : Discourses.BatchResult) (kvs : List (String × Json))
    (hres : b.results = .obj kvs)
    (hobj : kvs.all (fun kv => isJsonObj kv.2) = true) :
    b.get_successful = .ok (kvs.filter (fun kv => !(errorMarked kv.2))) ∧
    b.get_failed = .ok (kvs.filter (fun kv => errorMarked kv.2)) ∧
    (∀ kv, kv ∈ kvs.filter (fun kv => !(errorMarked kv.2)) ↔
      kv ∈ kvs ∧ errorMarked kv.2 = false) ∧
    (∀ kv, kv ∈ kvs.filter (fun kv => errorMarked kv.2) ↔
      kv ∈ kvs ∧ errorMarked kv.2 = true) ∧
    (∀ kv, kv ∈ kvs ↔ (kv ∈ kvs.filter (fun kv => !(errorMarked kv.2)) ∨
      kv ∈ kvs.filter (fun kv => errorMarked kv.2))) ∧
    (∀ kv, ¬(kv ∈ kvs.filter (fun kv => !(errorMarked kv.2)) ∧
      kv ∈ kvs.filter (fun kv => errorMarked kv.2))) := by
  have hsucc : b.get_successful = .ok (kvs.filter (fun kv => !(errorMarked kv.2))) := by
    rw [Discourses.BatchResult.get_successful, hres]
    show Discourses.filterByError false kvs = _
    rw [filterByError_of_all_obj false kvs hobj]
    congr 1
    apply List.filter_congr
    intro kv _
    cases errorMarked kv.2 <;> rfl
  have hfail : b.get_failed = .ok (kvs.filter (fun kv => errorMarked kv.2)) := by
    rw [Discourses.BatchResult.get_failed, hres]
    show Discourses.filterByError true kvs = _
    rw [filterByError_of_all_obj true kvs hobj]
    congr 1
    apply List.filter_congr
    intro kv _
    cases errorMarked kv.2 <;> rfl
  refine ⟨hsucc, hfail, ?_, ?_, ?_, ?_⟩
  · intro kv
    rw [List.mem_filter]
    cases h : errorMarked kv.2 <;> simp
  · intro kv
    rw [List.mem_filter]
  · intro kv
    rw [List.mem_filter, List.mem_filter]
    cases h : errorMarked kv.2 <;> simp
  · intro kv
    rw [List.mem_filter, List.mem_filter]
    rintro ⟨⟨-, hno⟩, ⟨-, hyes⟩⟩
    rw [hyes] at hno
    exact Bool.noConfusion hno

/-- C9 witness: a concrete batch result with one clean entry and one
error-marked entry is split accordingly. -/
theorem c9_batch_result_partition_witness :
    (Discourses.BatchResult.mk (.obj [("a", .obj []), ("b", .obj [("error", .str "boom")])])
      (.obj []) (.obj [])).get_successful = .ok [("a", .obj [])] ∧
    (Discourses.BatchResult.mk (.obj [("a", .obj []), ("b", .obj [("error", .str "boom")])])
      (.obj []) (.obj [])).get_failed = .ok [("b", .obj [("error", .str "boom")])] :=
  ⟨(c9_batch_result_partition _ [("a", .obj []), ("b", .obj [("error", .str "boom")])]
      rfl rfl).1,
   (c9_batch_result_partition _ [("a", .obj []), ("b", .obj [("error", .str "boom")])]
      rfl rfl).2.1⟩

/-- C7: on a 429 response with a decoded object payload, a numeric
`X-RateLimit-Reset` header becomes `retry_after`, and a non-numeric one
yields `retry_after = None` with the rate-limit error still raised (no parse
failure escapes). -/
theorem c7_rate_limit_retry_after (r : Discourses.Response) (kvs : List (String × Json))
    (hdr : String) (hd : Discourses.responseData r = .obj kvs)
    (hs : r.status_code = 429) (hh : r.rate_limit_reset = some hdr) :
    (∀ n : Int, pyIntStr hdr = some n →
      Discourses.handle_response r = .error (.raised (.rateLimitError
        (Discourses.extractMessage kvs) (some 429) (.obj kvs) (some n)))) ∧
    (pyIntStr hdr = none →
      Discourses.handle_response r = .error (.raised (.rateLimitError
        (Discourses.extractMessage kvs) (some 429) (.obj kvs) none))) := by
  have hretry : Discourses.retryAfterOf r = (if hdr = "" then none else pyIntStr hdr) := by
    simp [Discourses.retryAfterOf, hh]
  have hmain : Discourses.handle_response r = .error (.raised (.rateLimitError
      (Discourses.extractMessage kvs) (some 429) (.obj kvs) (Discourses.retryAfterOf r))) := by
    simp [Discourses.handle_response, hd, hs]
  constructor
  · intro n hn
    have hne : ¬ hdr = "" := by
      intro he
      rw [he] at hn
      exact Option.noConfusion hn
    rw [hmain, hretry, if_neg hne, hn]
  · intro hn
    rw [hmain, hretry]
    by_cases he : hdr = ""
    · rw [if_pos he]
    · rw [if_neg he, hn]

/-- C7 witness: canned 429 responses with headers `60` and `abc`. -/
theorem c7_rate_limit_retry_after_witness :
    Discourses.handle_response ⟨429, some (.obj []), "", some "60"⟩ =
      .error (.raised (.rateLimitError (.str "Unknown error") (some 429) (.obj []) (some 60))) ∧
    Discourses.handle_response ⟨429, some (.obj []), "", some "abc"⟩ =
      .error (.raised (.rateLimitError (.str "Unknown error") (some 429) (.obj []) none)) :=
  ⟨(c7_rate_limit_retry_after ⟨429, some (.obj []), "", some "60"⟩ [] "60" rfl rfl rfl).1 60 rfl,
   (c7_rate_limit_retry_after ⟨429, some (.obj []), "", some "abc"⟩ [] "abc" rfl rfl rfl).2 rfl⟩

/-- C8: empty or whitespace-only text makes `analyze` and `compare_eras`
raise the client-side `ValidationError` with no request issued; any other
text leads to exactly one request. -/
theorem c8_empty_text_no_request (send : Discourses.Request → Discourses.Response)
    (text : String) (era : Option Discourses.EraArg)
    (eras : Option (List Discourses.EraArg)) :
    ((text = "" ∨ pyStrip text = "") →
      Discourses.analyze send text era = ([], .error Discourses.emptyTextError) ∧
      Discourses.compare_eras send text eras = ([], .error Discourses.emptyTextError)) ∧
    (¬(text = "" ∨ pyStrip text = "") →
      (Discourses.analyze send text era).1.length = 1 ∧
      (Discourses.compare_eras send text eras).1.length = 1) := by
  constructor
  · intro h
    constructor
    · rw [Discourses.analyze.eq_def, if_pos h]
    · rw [Discourses.compare_eras.eq_def, if_pos h]
  · intro h
    constructor
    · rw [Discourses.analyze.eq_def, if_neg h]
      split
      · dsimp only
        split
        · rfl
        · split <;> rfl
      · split <;>
        · dsimp only
          split
          · rfl
          · split <;> rfl
    · rw [Discourses.compare_eras.eq_def, if_neg h]
      split
      · dsimp only
        split
        · rfl
        · split <;> rfl
      · split <;>
        · dsimp only
          split
          · rfl
          · split <;> rfl

/-- C8 witness: whitespace-only text is rejected locally; nonempty text
issues one request. -/
theorem c8_empty_text_no_request_witness :
    (Discourses.analyze okSend " " none = ([], .error Discourses.emptyTextError) ∧
     Discourses.compare_eras okSend " " none = ([], .error Discourses.emptyTextError)) ∧
    ((Discourses.analyze okSend "hi" none).1.length = 1 ∧
     (Discourses.compare_eras okSend "hi" none).1.length = 1) :=
  ⟨(c8_empty_text_no_request okSend " " none none).1 (Or.inr rfl),
   (c8_empty_text_no_request okSend "hi" none none).2 (by decide)⟩

theorem itemError_eq_none_iff (i : Nat) (item : Json) :
    Discourses.itemError i item = none ↔ itemOk item = true := by
  cases item with
  | obj kvs =>
    by_cases h : (hasKey kvs "id" && hasKey kvs "text") = true
    · simp [Discourses.itemError, itemOk, h]
    · simp [Discourses.itemError, itemOk, h]
  | null => simp [Discourses.itemError, itemOk]
  | bool b => simp [Discourses.itemError, itemOk]
  | num q => simp [Discourses.itemError, itemOk]
  | str s => simp [Discourses.itemError, itemOk]
  | arr xs => simp [Discourses.itemError, itemOk]

theorem firstItemError_at (texts : List Json) (i : Nat) (item : Json)
    (h1 : texts[i]? = some item) (h2 : itemOk item = false)
    (h3 : (texts.take i).all itemOk = true) :
    ∀ k, Discourses.firstItemError k texts = Discourses.itemError (k + i) item := by
  induction texts generalizing i with
  | nil => simp at h1
  | cons t rest ih =>
    intro k
    cases i with
    | zero =>
      simp only [List.getElem?_cons_zero, Option.some.injEq] at h1
      subst h1
      obtain ⟨e, he⟩ : ∃ e, Discourses.itemError k t = some e := by
        cases he2 : Discourses.itemError k t
        · rw [itemError_eq_none_iff] at he2
          rw [he2] at h2
          exact Bool.noConfusion h2
        · exact ⟨_, rfl⟩
      rw [Discourses.firstItemError, he]
      exact he.symm
    | succ j =>
      simp only [List.getElem?_cons_succ] at h1
      rw [List.take_succ_cons, List.all_cons, Bool.and_eq_true] at h3
      obtain ⟨ht, h3⟩ := h3
      rw [Discourses.firstItemError, (itemError_eq_none_iff k t).mpr ht]
      have hidx : k + (j + 1) = k + 1 + j := by omega
      rw [hidx]
      exact ih j h1 h3 (k + 1)

/-- C6: `batch` rejects an empty list with a `ValidationError` before any
request, and rejects a malformed item at position `i` (not a dict, or
missing the `id` or `text` key, with every earlier item well-formed) with
the positional `ValidationError` `itemError i item`, again issuing no
request. -/
theorem c6_batch_local_validation (send : Discourses.Request → Discourses.Response)
    (texts : List Json) (era : Discourses.EraArg) :
    (texts = [] → Discourses.batch send texts era = ([], .error (.raised (.validationError
      (.str "texts list cannot be empty") (some 400) (.obj []))))) ∧
    (∀ i item e, texts[i]? = some item → itemOk item = false →
      (texts.take i).all itemOk = true → Discourses.itemError i item = some e →
      Discourses.batch send texts era = ([], .error (.raised e))) := by
  constructor
  · intro h
    subst h
    rfl
  · intro i item e h1 h2 h3 he
    have hne : texts.isEmpty = false := by
      cases texts
      · simp at h1
      · rfl
    have hfirst : Discourses.firstItemError 0 texts = some e := by
      rw [firstItemError_at texts i item h1 h2 h3 0]
      simpa using he
    rw [Discourses.batch, hne]
    simp only [Bool.false_eq_true, if_false, hfirst]

/-- C6 witness: the empty list, and a list whose item at position 1 is not a
dict. -/
theorem c6_batch_local_validation_witness :
    Discourses.batch okSend [] (.era .PRESENT) = ([], .error (.raised (.validationError
      (.str "texts list cannot be empty") (some 400) (.obj [])))) ∧
    Discourses.batch okSend [.obj [("id", .str "1"), ("text", .str "hello")], .str "oops"]
        (.era .PRESENT) = ([], .error (.raised (.validationError
      (.str "Item 1 must be a dict with id and text keys") (some 400) (.obj [])))) :=
  ⟨(c6_batch_local_validation okSend [] (.era .PRESENT)).1 rfl,
   (c6_batch_local_validation okSend
      [.obj [("id", .str "1"), ("text", .str "hello")], .str "oops"] (.era .PRESENT)).2
      1 (.str "oops") _ rfl rfl rfl rfl⟩

/-- C1 counterexample: a 401 response whose body decodes to a JSON array.
The message lookup `data.get(...)` then raises `AttributeError`, so the
claimed `AuthenticationError` carrying message, status and payload is not
raised. -/
theorem c1_non_object_payload_counterexample :
    Discourses.handle_response ⟨401, some (.arr []), "x", none⟩ =
      .error .attributeError := rfl

/-- C1 (amended): for every response whose decoded payload is a JSON object
(including the fallback message object substituted for an undecodable
body), interpretation returns the payload exactly when the status is 200,
and otherwise raises the status-specific error carrying the extracted
message, the status code and the payload. -/
theorem c1_handle_response_dispatch (r : Discourses.Response) (kvs : List (String × Json))
    (hd : Discourses.responseData r = .obj kvs) :
    (r.status_code = 200 → Discourses.handle_response r = .ok (.obj kvs)) ∧
    (r.status_code = 401 → Discourses.handle_response r = .error (.raised
      (.authenticationError (Discourses.extractMessage kvs) (some r.status_code)
        (.obj kvs)))) ∧
    (r.status_code = 429 → Discourses.handle_response r = .error (.raised
      (.rateLimitError (Discourses.extractMessage kvs) (some r.status_code) (.obj kvs)
        (Discourses.retryAfterOf r)))) ∧
    (r.status_code = 400 ∨ r.status_code = 422 → Discourses.handle_response r = .error (.raised
      (.validationError (Discourses.extractMessage kvs) (some r.status_code) (.obj kvs)))) ∧
    (r.status_code ∉ ([200, 401, 429, 400, 422] : List Nat) →
      Discourses.handle_response r = .error (.raised
      (.apiError (Discourses.extractMessage kvs) (some r.status_code) (.obj kvs)))) ∧
    (Discourses.handle_response r = .ok (.obj kvs) ↔ r.status_code = 200) := by
  have herr : r.status_code ≠ 200 → ∃ e, Discourses.handle_response r = .error e := by
    intro hne
    simp only [Discourses.handle_response, hd, if_neg hne]
    split
    · exact ⟨_, rfl⟩
    · split
      · exact ⟨_, rfl⟩
      · split
        · exact ⟨_, rfl⟩
        · exact ⟨_, rfl⟩
  refine ⟨?_, ?_, ?_, ?_, ?_, ?_⟩
  · intro h200
    simp [Discourses.handle_response, hd, h200]
  · intro h
    simp [Discourses.handle_response, hd, h]
  · intro h
    simp [Discourses.handle_response, hd, h]
  · rintro (h | h) <;> simp [Discourses.handle_response, hd, h]
  · intro h
    simp only [List.mem_cons, List.not_mem_nil, or_false, not_or] at h
    obtain ⟨h1, h2, h3, h4, h5⟩ := h
    simp [Discourses.handle_response, hd, h1, h2, h3, h4, h5]
  · constructor
    · intro hok
      by_contra hne
      obtain ⟨e, he⟩ := herr hne
      rw [he] at hok
      exact Except.noConfusion hok
    · intro h200
      simp [Discourses.handle_response, hd, h200]

/-- C1 witness: a canned 401 response whose payload supplies the message. -/
theorem c1_handle_response_dispatch_witness :
    Discourses.handle_response ⟨401, some (.obj [("message", .str "bad key")]), "", none⟩ =
      .error (.raised (.authenticationError (.str "bad key") (some 401)
        (.obj [("message", .str "bad key")]))) :=
  (c1_handle_response_dispatch ⟨401, some (.obj [("message", .str "bad key")]), "", none⟩
    [("message", .str "bad key")] rfl).2.1 rfl

/-- C2 counterexample: the era string `bogus` is outside the token set
(`from_string` rejects it), yet `analyze` sends it to the server unchanged
in the request body and raises no validation error. -/
theorem c2_invalid_era_sent_counterexample :
    (Discourses.Era.from_string "bogus").isOk = false ∧
    (Discourses.analyze okSend "hi" (some (.str "bogus"))).1 =
      [{ method := "POST", endpoint := "/analyze",
         body := .obj [("text", .str "hi"), ("era", .str "bogus")] }] ∧
    (Discourses.analyze okSend "hi" (some (.str "bogus"))).2 =
      .ok { label := .str "neutral", confidence := 0, outlook := 0,
            scores := [("bullish", 0), ("bearish", 0), ("neutral", 0), ("confusion", 0)],
            word_count := 0, matched_count := 0, negation_count := 0, raw := .obj [] } :=
  ⟨rfl, rfl, rfl⟩

/-- C2 (amended): `analyze` attaches the era argument to the request body
without validating it against the token set: a truthy era string is sent
verbatim whether or not it is a valid token, an `Era` member is sent as its
token, and a falsy era (absent or the empty string) is omitted. -/
theorem c2_era_attached_unvalidated (send : Discourses.Request → Discourses.Response)
    (text : String) (h : ¬(text = "" ∨ pyStrip text = "")) :
    (∀ s : String, (s == "") = false →
      (Discourses.analyze send text (some (.str s))).1 =
        [{ method := "POST", endpoint := Discourses.endpointD "analyze",
           body := .obj [("text", .str text), ("era", .str s)] }]) ∧
    (∀ e : Discourses.Era,
      (Discourses.analyze send text (some (.era e))).1 =
        [{ method := "POST", endpoint := Discourses.endpointD "analyze",
           body := .obj [("text", .str text), ("era", .str e.value)] }]) ∧
    ((Discourses.analyze send text (some (.str ""))).1 =
        [{ method := "POST", endpoint := Discourses.endpointD "analyze",
           body := .obj [("text", .str text)] }]) ∧
    ((Discourses.analyze send text none).1 =
        [{ method := "POST", endpoint := Discourses.endpointD "analyze",
           body := .obj [("text", .str text)] }]) := by
  refine ⟨?_, ?_, ?_, ?_⟩
  · intro s hs
    rw [Discourses.analyze.eq_def, if_neg h]
    simp only [Discourses.eraArgTruthy, hs, Bool.not_false, if_true]
    split
    · rfl
    · split <;> rfl
  · intro e
    rw [Discourses.analyze.eq_def, if_neg h]
    simp only [Discourses.eraArgTruthy, if_true]
    split
    · rfl
    · split <;> rfl
  · rw [Discourses.analyze.eq_def, if_neg h]
    simp only [Discourses.eraArgTruthy, beq_self_eq_true, Bool.not_true, Bool.false_eq_true,
      if_false]
    split
    · rfl
    · split <;> rfl
  · rw [Discourses.analyze.eq_def, if_neg h]
    dsimp only
    split
    · rfl
    · split <;> rfl

/-- C2 amended-claim witness: the invalid era string `bogus` appears
verbatim in the issued request body. -/
theorem c2_era_attached_unvalidated_witness :
    (Discourses.analyze okSend "hi" (some (.str "bogus"))).1 =
      [{ method := "POST", endpoint := Discourses.endpointD "analyze",
         body := .obj [("text", .str "hi"), ("era", .str "bogus")] }] :=
  (c2_era_attached_unvalidated okSend "hi" (by decide)).1 "bogus" rfl

/-! ## Case-table lemmas for C4 -/

theorem lowerChar_of_pair : ∀ p ∈ casePairs, lowerChar p.1 = p.2 := by decide

theorem lowerChar_lowerAlpha : ∀ b ∈ lowerAlpha, lowerChar b = b := by decide

theorem lowerAlpha_not_ws : ∀ b ∈ lowerAlpha, b.isWhitespace = false := by decide

theorem pair_not_ws : ∀ p ∈ casePairs, p.1.isWhitespace = false ∧ p.2.isWhitespace = false := by
  decide

theorem lowerChar_ws_fix {c : Char} (h : c.isWhitespace = true) : lowerChar c = c := by
  rw [lowerChar]
  cases hf : casePairs.find? (fun p => p.1 = c) with
  | none => rfl
  | some p =>
    exfalso
    have hp : p ∈ casePairs := List.mem_of_find?_eq_some hf
    have hpc : p.1 = c := by simpa using List.find?_some hf
    have hnw := (pair_not_ws p hp).1
    rw [hpc, h] at hnw
    exact Bool.noConfusion hnw

theorem ws_of_lowerChar_ws {c : Char} (h : (lowerChar c).isWhitespace = true) :
    c.isWhitespace = true := by
  rw [lowerChar] at h
  cases hf : casePairs.find? (fun p => p.1 = c) with
  | none => rw [hf] at h; exact h
  | some p =>
    exfalso
    rw [hf] at h
    have hp : p ∈ casePairs := List.mem_of_find?_eq_some hf
    have hnw := (pair_not_ws p hp).2
    rw [h] at hnw
    exact Bool.noConfusion hnw

theorem specCaseChar_of_lowerChar {a b : Char} (h : lowerChar a = b) :
    specCaseChar a b = true := by
  cases hf : casePairs.find? (fun p => p.1 = a) with
  | none =>
    have hab : a = b := by rw [← h, lowerChar, hf]
    subst hab
    simp [specCaseChar]
  | some p =>
    have hpb : p.2 = b := by rw [← h, lowerChar, hf]
    have hp : p ∈ casePairs := List.mem_of_find?_eq_some hf
    have hpa : p.1 = a := by simpa using List.find?_some hf
    rw [specCaseChar, Bool.or_eq_true]
    exact Or.inr (List.any_eq_true.mpr ⟨p, hp, by simp [hpa, hpb]⟩)

theorem lowerChar_of_specCaseChar {a b : Char} (hb : b ∈ lowerAlpha)
    (h : specCaseChar a b = true) : lowerChar a = b := by
  rw [specCaseChar, Bool.or_eq_true] at h
  rcases h with h | h
  · have hab : a = b := by simpa using h
    subst hab
    exact lowerChar_lowerAlpha a hb
  · rw [List.any_eq_true] at h
    obtain ⟨p, hp, hpe⟩ := h
    rw [Bool.and_eq_true] at hpe
    have h1 : p.1 = a := by simpa using hpe.1
    have h2 : p.2 = b := by simpa using hpe.2
    rw [← h1, ← h2]
    exact lowerChar_of_pair p hp

theorem listLower_of_specCaseWord : ∀ {c t : List Char}, specCaseWord c t = true →
    (∀ x ∈ t, x ∈ lowerAlpha) → listLower c = t := by
  intro c
  induction c with
  | nil =>
    intro t h ht
    cases t with
    | nil => rfl
    | cons b bs => exact Bool.noConfusion h
  | cons a as ih =>
    intro t h ht
    cases t with
    | nil => exact Bool.noConfusion h
    | cons b bs =>
      rw [specCaseWord, Bool.and_eq_true] at h
      obtain ⟨h1, h2⟩ := h
      have hb : b ∈ lowerAlpha := ht b (List.mem_cons_self _ _)
      show lowerChar a :: listLower as = b :: bs
      rw [lowerChar_of_specCaseChar hb h1]
      rw [ih h2 (fun x hx => ht x (List.mem_cons_of_mem _ hx))]

theorem specCaseWord_of_listLower : ∀ {c t : List Char}, listLower c = t →
    (∀ x ∈ t, x ∈ lowerAlpha) → specCaseWord c t = true := by
  intro c
  induction c with
  | nil =>
    intro t h ht
    rw [← h]
    rfl
  | cons a as ih =>
    intro t h ht
    rw [← h] at ht ⊢
    show specCaseWord (a :: as) (lowerChar a :: listLower as) = true
    rw [specCaseWord, Bool.and_eq_true]
    constructor
    · exact specCaseChar_of_lowerChar rfl
    · exact ih rfl (fun x hx => ht x (List.mem_cons_of_mem _ hx))

theorem listLower_ws_fix {w : List Char} (h : allWhitespace w = true) : listLower w = w := by
  induction w with
  | nil => rfl
  | cons c cs ih =>
    rw [allWhitespace, List.all_cons, Bool.and_eq_true] at h
    obtain ⟨h1, h2⟩ := h
    show lowerChar c :: listLower cs = c :: cs
    rw [lowerChar_ws_fix h1, ih h2]

theorem allWhitespace_of_listLower {s w : List Char} (h : listLower s = w)
    (hw : allWhitespace w = true) : allWhitespace s = true := by
  rw [allWhitespace, List.all_eq_true]
  intro x hx
  have hmem : lowerChar x ∈ w := by
    rw [← h]
    exact List.mem_map_of_mem lowerChar hx
  rw [allWhitespace, List.all_eq_true] at hw
  exact ws_of_lowerChar_ws (hw _ hmem)

/-! ## Strip lemmas for C4 -/

theorem dropWhile_ws_append {w r : List Char} (h : allWhitespace w = true) :
    List.dropWhile Char.isWhitespace (w ++ r) = List.dropWhile Char.isWhitespace r := by
  induction w with
  | nil => rfl
  | cons c cs ih =>
    rw [allWhitespace, List.all_cons, Bool.and_eq_true] at h
    obtain ⟨h1, h2⟩ := h
    rw [List.cons_append, List.dropWhile_cons, if_pos h1]
    exact ih h2

theorem dropWhile_not_ws_head {a : Char} {r : List Char} (h : a.isWhitespace = false) :
    List.dropWhile Char.isWhitespace (a :: r) = a :: r := by
  rw [List.dropWhile_cons, if_neg (by simp [h])]

theorem listStrip_ws_prefix {w l : List Char} (h : allWhitespace w = true) :
    listStrip (w ++ l) = listStrip l := by
  rw [listStrip, listStrip, dropWhile_ws_append h]

theorem allWhitespace_takeWhile (l : List Char) :
    allWhitespace (l.takeWhile Char.isWhitespace) = true := by
  rw [allWhitespace, List.all_eq_true]
  intro x hx
  exact List.mem_takeWhile_imp hx

theorem allWhitespace_reverse {l : List Char} (h : allWhitespace l = true) :
    allWhitespace l.reverse = true := by
  rw [allWhitespace, List.all_eq_true] at h ⊢
  intro x hx
  exact h x (List.mem_reverse.mp hx)

theorem listStrip_token_ws {t w : List Char} (ht : ∀ x ∈ t, x ∈ lowerAlpha) (hne : t ≠ [])
    (hw : allWhitespace w = true) : listStrip (t ++ w) = t := by
  obtain ⟨a, t1, rfl⟩ : ∃ a t1, t = a :: t1 := by
    cases t with
    | nil => exact absurd rfl hne
    | cons a t1 => exact ⟨a, t1, rfl⟩
  rw [listStrip, List.cons_append,
    dropWhile_not_ws_head (lowerAlpha_not_ws a (ht a (List.mem_cons_self _ _)))]
  rw [← List.cons_append, List.reverse_append, dropWhile_ws_append (allWhitespace_reverse hw)]
  obtain ⟨L, b, hLb⟩ : ∃ (L : List Char) (b : Char), a :: t1 = L ++ [b] := by
    rcases List.eq_nil_or_concat (a :: t1) with hnil | ⟨L, b, hcat⟩
    · exact absurd hnil (by simp)
    · exact ⟨L, b, by rw [hcat, List.concat_eq_append]⟩
  rw [hLb, List.reverse_concat]
  have hb : b ∈ lowerAlpha := by
    apply ht
    rw [hLb]
    simp
  rw [dropWhile_not_ws_head (lowerAlpha_not_ws b hb), ← List.reverse_concat,
    List.reverse_reverse]

theorem listStrip_sandwich {w1 t w2 : List Char} (h1 : allWhitespace w1 = true)
    (h2 : allWhitespace w2 = true) (ht : ∀ x ∈ t, x ∈ lowerAlpha) (hne : t ≠ []) :
    listStrip (w1 ++ t ++ w2) = t := by
  rw [List.append_assoc, listStrip_ws_prefix h1, listStrip_token_ws ht hne h2]

theorem listStrip_decomp (u : List Char) :
    ∃ p q, u = p ++ listStrip u ++ q ∧ allWhitespace p = true ∧ allWhitespace q = true := by
  refine ⟨u.takeWhile Char.isWhitespace,
    ((u.dropWhile Char.isWhitespace).reverse.takeWhile Char.isWhitespace).reverse,
    ?_, allWhitespace_takeWhile u,
    allWhitespace_reverse (allWhitespace_takeWhile _)⟩
  conv_lhs => rw [← List.takeWhile_append_dropWhile Char.isWhitespace u]
  rw [List.append_assoc]
  congr 1
  conv_lhs => rw [← List.reverse_reverse (u.dropWhile Char.isWhitespace),
    ← List.takeWhile_append_dropWhile Char.isWhitespace (u.dropWhile Char.isWhitespace).reverse]
  rw [List.reverse_append, listStrip]

/-! ## The two directions of C4 -/

theorem stripLower_of_caseWsVariant {s t : List Char} (h : caseWsVariant s t)
    (ht : ∀ x ∈ t, x ∈ lowerAlpha) (hne : t ≠ []) :
    listStrip (listLower s) = t := by
  obtain ⟨w1, c, w2, rfl, hw1, hw2, hcw⟩ := h
  have hlc : listLower c = t := listLower_of_specCaseWord hcw ht
  show listStrip (List.map lowerChar (w1 ++ c ++ w2)) = t
  rw [List.map_append, List.map_append]
  rw [show List.map lowerChar w1 = w1 from listLower_ws_fix hw1]
  rw [show List.map lowerChar w2 = w2 from listLower_ws_fix hw2]
  rw [show List.map lowerChar c = t from hlc]
  exact listStrip_sandwich hw1 hw2 ht hne

theorem caseWsVariant_of_stripLower {s t : List Char} (h : listStrip (listLower s) = t)
    (ht : ∀ x ∈ t, x ∈ lowerAlpha) : caseWsVariant s t := by
  obtain ⟨p, q, hu, hp, hq⟩ := listStrip_decomp (listLower s)
  rw [h] at hu
  obtain ⟨s12, s3, hs, hm12, hm3⟩ := List.map_eq_append_iff.mp hu
  obtain ⟨s1, s2, hs2, hm1, hm2⟩ := List.map_eq_append_iff.mp hm12
  refine ⟨s1, s2, s3, ?_, ?_, ?_, ?_⟩
  · rw [hs, hs2]
  · exact allWhitespace_of_listLower hm1 hp
  · exact allWhitespace_of_listLower hm3 hq
  · exact specCaseWord_of_listLower hm2 ht

theorem pkg_token_alpha : ∀ e : Discourses.Era,
    (∀ x ∈ (Discourses.Era.value e).data, x ∈ lowerAlpha) ∧
    (Discourses.Era.value e).data ≠ [] := by
  intro e
  cases e <;> exact ⟨by decide, by decide⟩

theorem root_token_alpha : ∀ e : RootConstants.Era,
    (∀ x ∈ (RootConstants.Era.value e).data, x ∈ lowerAlpha) ∧
    (RootConstants.Era.value e).data ≠ [] := by
  intro e
  cases e <;> exact ⟨by decide, by decide⟩

theorem pyStripLower_data (s : List Char) :
    pyStrip (pyLower (String.mk s)) = String.mk (listStrip (listLower s)) := rfl

theorem pkg_from_string_of_variant {e : Discourses.Era} {s : List Char}
    (h : caseWsVariant s (Discourses.Era.value e).data) :
    Discourses.Era.from_string (String.mk s) = .ok e := by
  have hs : listStrip (listLower s) = (Discourses.Era.value e).data :=
    stripLower_of_caseWsVariant h (pkg_token_alpha e).1 (pkg_token_alpha e).2
  have hv : pyStrip (pyLower (String.mk s)) = Discourses.Era.value e := by
    rw [pyStripLower_data, hs]
  rw [Discourses.Era.from_string, hv]
  cases e <;> rfl

theorem root_from_string_of_variant {e : RootConstants.Era} {s : List Char}
    (h : caseWsVariant s (RootConstants.Era.value e).data) :
    RootConstants.Era.from_string (String.mk s) = .ok e := by
  have hs : listStrip (listLower s) = (RootConstants.Era.value e).data :=
    stripLower_of_caseWsVariant h (root_token_alpha e).1 (root_token_alpha e).2
  have hv : pyStrip (pyLower (String.mk s)) = RootConstants.Era.value e := by
    rw [pyStripLower_data, hs]
  rw [RootConstants.Era.from_string, hv]
  cases e <;> rfl

theorem pkg_from_string_error {s : List Char}
    (h : ∀ e : Discourses.Era, ¬ caseWsVariant s (Discourses.Era.value e).data) :
    (Discourses.Era.from_string (String.mk s)).isOk = false := by
  have key : ∀ e : Discourses.Era,
      pyStrip (pyLower (String.mk s)) ≠ Discourses.Era.value e := by
    intro e he
    apply h e
    apply caseWsVariant_of_stripLower _ (pkg_token_alpha e).1
    have := congrArg String.data he
    rw [pyStripLower_data] at he
    exact congrArg String.data he
  have k1 : pyStrip (pyLower (String.mk s)) ≠ "primitive" := key .PRIMITIVE
  have k2 : pyStrip (pyLower (String.mk s)) ≠ "meme" := key .MEME
  have k3 : pyStrip (pyLower (String.mk s)) ≠ "present" := key .PRESENT
  rw [Discourses.Era.from_string]
  rw [if_neg k1, if_neg k2, if_neg k3]
  rfl

theorem root_from_string_error {s : List Char}
    (h : ∀ e : RootConstants.Era, ¬ caseWsVariant s (RootConstants.Era.value e).data) :
    (RootConstants.Era.from_string (String.mk s)).isOk = false := by
  have key : ∀ e : RootConstants.Era,
      pyStrip (pyLower (String.mk s)) ≠ RootConstants.Era.value e := by
    intro e he
    apply h e
    apply caseWsVariant_of_stripLower _ (root_token_alpha e).1
    rw [pyStripLower_data] at he
    exact congrArg String.data he
  have k1 : pyStrip (pyLower (String.mk s)) ≠ "primitive" := key .PRIMITIVE
  have k2 : pyStrip (pyLower (String.mk s)) ≠ "ramp" := key .RAMP
  have k3 : pyStrip (pyLower (String.mk s)) ≠ "meme" := key .MEME
  have k4 : pyStrip (pyLower (String.mk s)) ≠ "present" := key .PRESENT
  rw [RootConstants.Era.from_string]
  rw [if_neg k1, if_neg k2, if_neg k3, if_neg k4]
  rfl

/-- C4: in both Era definitions, `from_string` maps every string that
differs from a valid token only by letter case and leading/trailing
whitespace to that token's member, and rejects every other string with the
`ValueError` branch. -/
theorem c4_from_string_case_ws_tolerant :
    (∀ (e : Discourses.Era) (s : List Char), caseWsVariant s (Discourses.Era.value e).data →
      Discourses.Era.from_string (String.mk s) = .ok e) ∧
    (∀ s : List Char, (∀ e : Discourses.Era, ¬ caseWsVariant s (Discourses.Era.value e).data) →
      (Discourses.Era.from_string (String.mk s)).isOk = false) ∧
    (∀ (e : RootConstants.Era) (s : List Char),
      caseWsVariant s (RootConstants.Era.value e).data →
      RootConstants.Era.from_string (String.mk s) = .ok e) ∧
    (∀ s : List Char,
      (∀ e : RootConstants.Era, ¬ caseWsVariant s (RootConstants.Era.value e).data) →
      (RootConstants.Era.from_string (String.mk s)).isOk = false) :=
  ⟨fun _ _ h => pkg_from_string_of_variant h,
   fun _ h => pkg_from_string_error h,
   fun _ _ h => root_from_string_of_variant h,
   fun _ h => root_from_string_error h⟩

/-- C4 witness: a cased, padded token is accepted in both modules, and a
string that is no case/whitespace variant of any token is rejected. -/
theorem c4_from_string_case_ws_tolerant_witness :
    Discourses.Era.from_string " MeMe " = .ok .MEME ∧
    (Discourses.Era.from_string "boGus").isOk = false ∧
    RootConstants.Era.from_string "RAMP" = .ok .RAMP := by
  refine ⟨?_, ?_, ?_⟩
  · exact c4_from_string_case_ws_tolerant.1 .MEME " MeMe ".data
      ⟨[' '], ['M', 'e', 'M', 'e'], [' '], by decide, by decide, by decide, by decide⟩
  · apply c4_from_string_case_ws_tolerant.2.1 "boGus".data
    intro e h
    have hs := stripLower_of_caseWsVariant h (pkg_token_alpha e).1 (pkg_token_alpha e).2
    cases e <;> exact absurd hs (by decide)
  · exact c4_from_string_case_ws_tolerant.2.2.1 .RAMP "RAMP".data
      ⟨[], ['R', 'A', 'M', 'P'], [], by decide, by decide, by decide, by decide⟩
